import Mathlib

/-!
Verification of the GDM webhook relay (src/server.py).

This file gives a shallow embedding of the pure core of the server:
Python string manipulation is modelled over List Char / String, JSON
parsing (json.loads) by an executable recursive-descent parser,
time.time() instants by rationals, the in-memory de-dup dict by an
insertion-ordered association list, and the network plus file system by
explicit oracles / effect counters.  Each definition mirrors the Python
function of the same name.
-/

/-! ## Python string primitives -/

/-- The ASCII whitespace characters stripped by Python str.strip /
str.rstrip with no arguments (the model restricts Python's Unicode
whitespace set to ASCII: space, tab, newline, carriage return, vertical
tab, form feed; all inputs of interest are ASCII). -/
def isPySpace (c : Char) : Bool :=
  c = ' ' || c = '\t' || c = '\n' || c = '\r' || c = '\x0b' || c = '\x0c'

/-- Python str.rstrip() on a character list. -/
def rstripL (l : List Char) : List Char :=
  (l.reverse.dropWhile isPySpace).reverse

/-- Python str.lstrip() on a character list. -/
def lstripL (l : List Char) : List Char :=
  l.dropWhile isPySpace

/-- Python str.strip() on a character list. -/
def stripL (l : List Char) : List Char :=
  lstripL (rstripL l)

/-- Python str.rstrip(). -/
def pyRstrip (s : String) : String :=
  String.mk (rstripL s.data)

/-- Python str.strip(). -/
def pyStrip (s : String) : String :=
  String.mk (stripL s.data)

/-- Python str.upper(), restricted to ASCII letters (Char.toUpper);
all event tags of interest are ASCII). -/
def pyUpper (s : String) : String :=
  String.mk (s.data.map Char.toUpper)

/-- Helper for pySplitlines: accumulates the current line (reversed).
Line boundaries modelled are the ASCII ones Python str.splitlines
recognises in this code base: LF, CR, CRLF.  As in Python, a trailing
line terminator does not produce a final empty line. -/
def pySplitlinesAux : List Char → List Char → List String
  | [], acc => if acc.isEmpty then [] else [String.mk acc.reverse]
  | '\r' :: '\n' :: rest, acc => String.mk acc.reverse :: pySplitlinesAux rest []
  | '\r' :: rest, acc => String.mk acc.reverse :: pySplitlinesAux rest []
  | '\n' :: rest, acc => String.mk acc.reverse :: pySplitlinesAux rest []
  | c :: rest, acc => pySplitlinesAux rest (c :: acc)

/-- Python str.splitlines(). -/
def pySplitlines (s : String) : List String :=
  pySplitlinesAux s.data []

/-- Does t occur as a contiguous substring of l?  Models the Python
expression "t in s" on strings. -/
def hasInfix (t : List Char) : List Char → Bool
  | [] => t.isEmpty
  | c :: rest => t.isPrefixOf (c :: rest) || hasInfix t rest

/-- String-level wrapper of hasInfix: Python "t in s". -/
def pyContains (t s : String) : Bool :=
  hasInfix t.data s.data

/-- Python s.startswith(pre), via character lists (String.startsWith
does not reduce well in the kernel). -/
def pyStartsWith (s pre : String) : Bool :=
  pre.data.isPrefixOf s.data

/-- Python s.endswith(suf), via character lists. -/
def pyEndsWith (s suf : String) : Bool :=
  suf.data.isSuffixOf s.data

/-- Characters of l strictly before the first occurrence of t;
the whole of l when t does not occur.  Models Python s.split(t, 1)[0]
for non-empty t. -/
def takeBefore (t : List Char) : List Char → List Char
  | [] => []
  | c :: rest =>
    if t.isPrefixOf (c :: rest) then [] else c :: takeBefore t rest

/-- Characters of l strictly after the first occurrence of t, or none
when t does not occur.  Models Python s[s.find(t) + t.length :] guarded
by s.find(t) != -1, for non-empty t. -/
def takeAfter (t : List Char) : List Char → Option (List Char)
  | [] => none
  | c :: rest =>
    if t.isPrefixOf (c :: rest) then some ((c :: rest).drop t.length)
    else takeAfter t rest

/-- Python "\n".join(pieces). -/
def joinNL : List String → String
  | [] => ""
  | [s] => s
  | s :: rest => s ++ "\n" ++ joinNL rest

/-- Insertion-ordered dict lookup (Python d.get(k) / d[k]). -/
def dictGet {α : Type} (k : String) : List (String × α) → Option α
  | [] => none
  | (k', v) :: rest => if k' = k then some v else dictGet k rest

/-- Insertion-ordered dict assignment (Python d[k] = v): an existing key
keeps its position and gets the new value, a new key is appended. -/
def dictSet {α : Type} (k : String) (v : α) : List (String × α) → List (String × α)
  | [] => [(k, v)]
  | (k', v') :: rest =>
    if k' = k then (k, v) :: rest else (k', v') :: dictSet k v rest

/-! ## Telemetry bucket path (server.py _get_csv_path) -/

/-- Zero-padded decimal rendering, Python f-string {n:0wd} for n >= 0. -/
def padZeros (w : Nat) (n : Nat) : String :=
  let s := toString n
  if s.length < w then String.mk (List.replicate (w - s.length) '0') ++ s else s

/-- server.py _get_csv_path: log file path for the current UTC date.
period_start groups days as (1-2, 3-4, 5-6, ...); the file name is
"gdm_signals_YYYYMMDD_<periodStart>.csv" joined under the log
directory (os.path.join modelled as "/"-joining). -/
def get_csv_path (logDir : String) (year month day : Nat) : String :=
  let period_start := if day % 2 = 1 then day else day - 1
  logDir ++ "/" ++ "gdm_signals_" ++ padZeros 4 year ++ padZeros 2 month
    ++ padZeros 2 day ++ "_" ++ padZeros 2 period_start ++ ".csv"

/-! ## Telemetry splitter (server.py strip_log_from_body) -/

/-- The telemetry marker token "LOG:" as a character list. -/
def logTok : List Char := "LOG:".data

/-- The per-line loop of server.py strip_log_from_body.  For each line
ln the code sets s = ln.rstrip(); a line whose stripped form starts
with "LOG:" is skipped; the first remaining line containing "LOG:"
inline contributes only its right-stripped portion before the marker
(dropped when empty) and stops the loop (the Python loop breaks);
every other line contributes s. -/
def processLines : List String → List String
  | [] => []
  | ln :: rest =>
    let s := pyRstrip ln
    if pyStartsWith (pyStrip s) "LOG:" then processLines rest
    else if hasInfix logTok s.data then
      let pre := pyRstrip (String.mk (takeBefore logTok s.data))
      if pre = "" then [] else [pre]
    else s :: processLines rest

/-- server.py strip_log_from_body: remove telemetry appended via "LOG:"
and return only the human signal text ("\n".join of the kept pieces,
stripped). -/
def strip_log_from_body (raw_body : String) : String :=
  if raw_body = "" then ""
  else pyStrip (joinNL (processLines (pySplitlines raw_body)))

/-- The contribution of the first inline-marker line (spec wording):
the right-trimmed portion before the marker, or nothing when blank. -/
def inlinePiece : List String → List String
  | [] => []
  | inl :: _ =>
    let pre := pyRstrip (String.mk (takeBefore logTok (pyRstrip inl).data))
    if pre = "" then [] else [pre]

/-- The kept pieces of the splitter, written the way the (amended) spec
describes them: drop every line whose trimmed form starts with the
marker; of the remaining lines take, right-trimmed, those before the
first line containing the marker inline; from that first inline line
keep only the trimmed portion before the marker (nothing when it is
blank); all later lines are discarded. -/
def specLines (lines : List String) : List String :=
  let kept := lines.filter (fun ln => !(pyStartsWith (pyStrip (pyRstrip ln)) "LOG:"))
  let noIL := fun ln => !(hasInfix logTok (pyRstrip ln).data)
  let before := (kept.takeWhile noIL).map pyRstrip
  let after := kept.dropWhile noIL
  before ++ inlinePiece after

/-- clean_text as the (amended) spec describes it: join the spec-side
kept pieces with newlines and trim surrounding whitespace. -/
def clean_text_spec (raw_body : String) : String :=
  pyStrip (joinNL (specLines (pySplitlines raw_body)))

/-! ## JSON values and json.loads (executable model) -/

/-- The opening brace character (written via its code point). -/
def lbrace : Char := Char.ofNat 123

/-- The closing brace character. -/
def rbrace : Char := Char.ofNat 125

/-- A Python value as produced by json.loads: None, bool, int, float
(modelled exactly as a rational), str, list, dict.  A dict is an
insertion-ordered association list with distinct keys (as CPython
builds it: a duplicate key in the JSON text keeps the first position
and the last value — see pPair). -/
inductive PyVal where
  | null : PyVal
  | bool : Bool → PyVal
  | int : Int → PyVal
  | float : Rat → PyVal
  | str : String → PyVal
  | arr : List PyVal → PyVal
  | obj : List (String × PyVal) → PyVal

/-- The whitespace json.loads skips between tokens. -/
def isJsonWs (c : Char) : Bool :=
  c = ' ' || c = '\t' || c = '\n' || c = '\r'

/-- Value of one hex digit. -/
def hexVal (c : Char) : Option Nat :=
  if '0' ≤ c ∧ c ≤ '9' then some (c.toNat - 48)
  else if 'a' ≤ c ∧ c ≤ 'f' then some (c.toNat - 87)
  else if 'A' ≤ c ∧ c ≤ 'F' then some (c.toNat - 55)
  else none

/-- JSON string body parser (the opening quote already consumed).
Handles the JSON escapes; \uXXXX is decoded as a single code point
(surrogate-pair recombination is outside the model); an unescaped
control character or an unterminated string is an error, as in
json.loads. -/
def pStringAux : List Char → List Char → Option (String × List Char)
  | _, [] => none
  | acc, '\\' :: '"' :: rest => pStringAux ('"' :: acc) rest
  | acc, '\\' :: '\\' :: rest => pStringAux ('\\' :: acc) rest
  | acc, '\\' :: '/' :: rest => pStringAux ('/' :: acc) rest
  | acc, '\\' :: 'b' :: rest => pStringAux ('\x08' :: acc) rest
  | acc, '\\' :: 'f' :: rest => pStringAux ('\x0c' :: acc) rest
  | acc, '\\' :: 'n' :: rest => pStringAux ('\n' :: acc) rest
  | acc, '\\' :: 'r' :: rest => pStringAux ('\r' :: acc) rest
  | acc, '\\' :: 't' :: rest => pStringAux ('\t' :: acc) rest
  | acc, '\\' :: 'u' :: h1 :: h2 :: h3 :: h4 :: rest =>
    match hexVal h1, hexVal h2, hexVal h3, hexVal h4 with
    | some a, some b, some c, some d =>
      pStringAux (Char.ofNat (((a * 16 + b) * 16 + c) * 16 + d) :: acc) rest
    | _, _, _, _ => none
  | _, '\\' :: _ :: _ => none
  | acc, '"' :: rest => some (String.mk acc.reverse, rest)
  | acc, c :: rest =>
    if c.toNat < 32 then none else pStringAux (c :: acc) rest

/-- Digits of a decimal literal as a Nat. -/
def digitsToNat (l : List Char) : Nat :=
  l.foldl (fun acc c => acc * 10 + (c.toNat - 48)) 0

/-- JSON number parser.  Follows the JSON grammar json.loads enforces:
optional minus, integer part without leading zeros, optional fraction
and exponent each requiring at least one digit.  A literal without
fraction or exponent is a Python int; otherwise a float, whose value is
modelled exactly as a rational. -/
def pNumber (cs : List Char) : Option (PyVal × List Char) :=
  let signNeg : Bool := match cs with | '-' :: _ => true | _ => false
  let cs1 := match cs with | '-' :: rest => rest | _ => cs
  let ipOpt : Option (List Char × List Char) :=
    match cs1 with
    | '0' :: rest => some (['0'], rest)
    | c :: rest =>
      if c.isDigit then
        some (c :: rest.takeWhile Char.isDigit, rest.dropWhile Char.isDigit)
      else none
    | [] => none
  match ipOpt with
  | none => none
  | some (ip, cs2) =>
    let hasFrac : Bool := match cs2 with | '.' :: _ => true | _ => false
    let csF := match cs2 with | '.' :: rest => rest | _ => cs2
    let fd := if hasFrac then csF.takeWhile Char.isDigit else []
    let cs3 := if hasFrac then csF.dropWhile Char.isDigit else cs2
    if hasFrac && fd.isEmpty then none
    else
      let hasExp : Bool :=
        match cs3 with | 'e' :: _ => true | 'E' :: _ => true | _ => false
      let csE := match cs3 with | 'e' :: rest => rest | 'E' :: rest => rest | _ => cs3
      let expNeg : Bool :=
        if hasExp then (match csE with | '-' :: _ => true | _ => false) else false
      let csE2 :=
        if hasExp then
          (match csE with | '-' :: r => r | '+' :: r => r | _ => csE)
        else csE
      let ed := if hasExp then csE2.takeWhile Char.isDigit else []
      let cs4 := if hasExp then csE2.dropWhile Char.isDigit else cs3
      if hasExp && ed.isEmpty then none
      else if !hasFrac && !hasExp then
        let n : Int := Int.ofNat (digitsToNat ip)
        some (PyVal.int (if signNeg then -n else n), cs2)
      else
        let mant : Rat := (digitsToNat (ip ++ fd) : Rat) / ((10 : Rat) ^ fd.length)
        let e : Int :=
          if expNeg then -(Int.ofNat (digitsToNat ed)) else Int.ofNat (digitsToNat ed)
        let q := mant * (10 : Rat) ^ e
        some (PyVal.float (if signNeg then -q else q), cs4)

/-- Matches a literal tail (the rest of true / false / null). -/
def expectLit : List Char → List Char → Option (List Char)
  | [], cs => some cs
  | l :: ls, c :: cs => if l = c then expectLit ls cs else none
  | _ :: _, [] => none

mutual

/-- JSON value parser with fuel (fuel bounds the recursion depth; each
recursive call consumes input, and json_loads supplies ample fuel). -/
def pValue : Nat → List Char → Option (PyVal × List Char)
  | 0, _ => none
  | fuel + 1, cs =>
    match cs.dropWhile isJsonWs with
    | [] => none
    | c :: rest =>
      if c = '"' then
        match pStringAux [] rest with
        | some (s, r) => some (PyVal.str s, r)
        | none => none
      else if c = lbrace then
        match rest.dropWhile isJsonWs with
        | c2 :: r2 => if c2 = rbrace then some (PyVal.obj [], r2) else pPair fuel [] rest
        | [] => none
      else if c = '[' then
        match rest.dropWhile isJsonWs with
        | c2 :: r2 => if c2 = ']' then some (PyVal.arr [], r2) else pElems fuel [] rest
        | [] => none
      else if c = 't' then
        match expectLit ['r', 'u', 'e'] rest with
        | some r => some (PyVal.bool true, r)
        | none => none
      else if c = 'f' then
        match expectLit ['a', 'l', 's', 'e'] rest with
        | some r => some (PyVal.bool false, r)
        | none => none
      else if c = 'n' then
        match expectLit ['u', 'l', 'l'] rest with
        | some r => some (PyVal.null, r)
        | none => none
      else pNumber (c :: rest)

/-- Parses one "key": value member and the following members of a JSON
object, accumulating a Python dict (duplicate keys: first position,
last value, via dictSet). -/
def pPair : Nat → List (String × PyVal) → List Char → Option (PyVal × List Char)
  | 0, _, _ => none
  | fuel + 1, acc, cs =>
    match cs.dropWhile isJsonWs with
    | '"' :: rest =>
      match pStringAux [] rest with
      | some (k, r1) =>
        match r1.dropWhile isJsonWs with
        | ':' :: r2 =>
          match pValue fuel r2 with
          | some (v, r3) =>
            let acc' := dictSet k v acc
            match r3.dropWhile isJsonWs with
            | c :: r4 =>
              if c = rbrace then some (PyVal.obj acc', r4)
              else if c = ',' then pPair fuel acc' r4
              else none
            | [] => none
          | none => none
        | _ => none
      | none => none
    | _ => none

/-- Parses the elements of a non-empty JSON array (accumulator holds
the elements parsed so far, reversed). -/
def pElems : Nat → List PyVal → List Char → Option (PyVal × List Char)
  | 0, _, _ => none
  | fuel + 1, acc, cs =>
    match pValue fuel cs with
    | some (v, r) =>
      match r.dropWhile isJsonWs with
      | c :: r2 =>
        if c = ']' then some (PyVal.arr (v :: acc).reverse, r2)
        else if c = ',' then pElems fuel (v :: acc) r2
        else none
      | [] => none
    | none => none

end

/-- Python json.loads: parse one JSON value and require only
whitespace after it.  (NaN / Infinity extensions are outside the
model; no payload in this code base uses them.) -/
def json_loads (s : String) : Option PyVal :=
  match pValue (2 * s.length + 2) s.data with
  | some (v, rest) => if (rest.dropWhile isJsonWs).isEmpty then some v else none
  | none => none

mutual

/-- Python repr of a json.loads value, used by str() on containers.
For floats the decimal rendering of CPython is approximated by the
rational's own rendering; no claim depends on container or float
renderings (they can never equal a bare tag such as "HB15"). -/
def pyRepr : PyVal → String
  | PyVal.null => "None"
  | PyVal.bool b => if b then "True" else "False"
  | PyVal.int n => toString n
  | PyVal.float q => toString q
  | PyVal.str s => "\x27" ++ s ++ "\x27"
  | PyVal.arr xs => "[" ++ pyReprList xs ++ "]"
  | PyVal.obj kvs => "\x7b" ++ pyReprObj kvs ++ "\x7d"

def pyReprList : List PyVal → String
  | [] => ""
  | [x] => pyRepr x
  | x :: rest => pyRepr x ++ ", " ++ pyReprList rest

def pyReprObj : List (String × PyVal) → String
  | [] => ""
  | [(k, v)] => "\x27" ++ k ++ "\x27: " ++ pyRepr v
  | (k, v) :: rest => "\x27" ++ k ++ "\x27: " ++ pyRepr v ++ ", " ++ pyReprObj rest

end

/-- Python str() of a json.loads value: a str is itself, anything else
renders via repr (ints, bools and None match CPython exactly; see
pyRepr for floats and containers). -/
def pyStr : PyVal → String
  | PyVal.str s => s
  | v => pyRepr v

/-! ## server.py parse_log_json and extract_tv_message -/

/-- The per-line loop of server.py parse_log_json: the first line whose
stripped form contains "LOG:" decides the result — the substring after
the first marker is stripped and fed to json.loads; a dict result is
returned, anything else (parse failure or a non-dict) yields None
without examining further lines. -/
def parseLogLines : List String → Option (List (String × PyVal))
  | [] => none
  | ln :: rest =>
    let s := pyStrip ln
    match takeAfter logTok s.data with
    | none => parseLogLines rest
    | some payload =>
      match json_loads (pyStrip (String.mk payload)) with
      | some (PyVal.obj m) => some m
      | _ => none

/-- server.py parse_log_json: extract the JSON dict after the first
occurrence of "LOG:". -/
def parse_log_json (raw_body : String) : Option (List (String × PyVal)) :=
  if raw_body = "" then none
  else parseLogLines (pySplitlines raw_body)

/-- The key loop of server.py extract_tv_message: the first of the keys
whose value in the dict is a string (a key that is absent or holds a
non-string is passed over). -/
def firstStrField (m : List (String × PyVal)) : List String → Option String
  | [] => none
  | k :: ks =>
    match dictGet k m with
    | some (PyVal.str s) => some s
    | _ => firstStrField m ks

/-- server.py extract_tv_message: the request body (req.get_data,
modelled as the body argument) stripped; when that looks brace-wrapped
and json.loads yields a dict, the first string value among the keys
"message", "text", "body" is returned stripped, else the stripped raw
body. -/
def extract_tv_message (body : String) : String :=
  let raw := pyStrip body
  if pyStartsWith raw "\x7b" && pyEndsWith raw "\x7d" then
    match json_loads raw with
    | some (PyVal.obj m) =>
      match firstStrField m ["message", "text", "body"] with
      | some s => pyStrip s
      | none => raw
    | _ => raw
  else raw

/-- Payload extraction as the (amended) spec describes it: an optional
structured tier — attempted only on a brace-wrapped trimmed body that
parses as a JSON object, producing the first string value among the
fields message, text, body, trimmed (even when empty) — with the
trimmed raw body as the fallback tier. -/
def extract_spec (body : String) : String :=
  let raw := pyStrip body
  let structured : Option String :=
    if pyStartsWith raw "\x7b" && pyEndsWith raw "\x7d" then
      match json_loads raw with
      | some (PyVal.obj m) =>
        (["message", "text", "body"].filterMap (fun k =>
          match dictGet k m with
          | some (PyVal.str s) => some (pyStrip s)
          | _ => none)).head?
      | _ => none
    else none
  structured.getD raw

/-! ## De-dup store and Telegram delivery (server.py) -/

/-- server.py _hash_text: sha256 hexdigest of the text.  The model
takes the identity as the fingerprint function: the code only ever
compares fingerprints of texts for equality, and the hash is injective
on texts in the intended (collision-free) reading of the spec. -/
def hash_text (text : String) : String := text

/-- Stable insertion of an entry into a timestamp-sorted list (the
element goes before the first entry with a timestamp greater than or
equal to its own, so equal timestamps keep their original order). -/
def insertByTs (x : String × Int) : List (String × Int) → List (String × Int)
  | [] => [x]
  | y :: rest => if x.2 ≤ y.2 then x :: y :: rest else y :: insertByTs x rest

/-- Python sorted(d.items(), key=ts): stable ascending sort by
timestamp of the insertion-ordered entry list. -/
def sortByTs (l : List (String × Int)) : List (String × Int) :=
  l.foldr insertByTs []

/-- Runtime configuration of the server (environment values): Telegram
credentials, warmup window READY_AFTER_SEC, retry count TG_RETRIES,
backoff TG_BACKOFF_SEC, de-dup window DEDUP_WINDOW_SEC and entry cap
DEDUP_MAX_KEYS.  The code holds seconds as floats but only ever
subtracts and compares them, so the time axis is modelled by
integers. -/
structure Config where
  bot_token : String
  chat_id : String
  ready_after_sec : Int
  tg_retries : Nat
  tg_backoff_sec : Int
  dedup_window_sec : Int
  dedup_max_keys : Nat
deriving DecidableEq

/-- server.py _dedup_allows: True when the text should be sent, False
when it is a duplicate within the window.  The code first halves the
store when the entry count exceeds the cap, then expires entries older
than the window, then looks the fingerprint up (suppression leaves the
store untouched; otherwise the entry is written with the current
time). -/
def dedup_allows (cfg : Config) (now : Int) (text : String)
    (d : List (String × Int)) : Bool × List (String × Int) :=
  let h := hash_text text
  let d1 :=
    if d.length > cfg.dedup_max_keys then
      let toRemove := ((sortByTs d).take (max 1 (d.length / 2))).map Prod.fst
      d.filter (fun kv => !(toRemove.contains kv.1))
    else d
  let d2 := d1.filter (fun kv => !(now - kv.2 > cfg.dedup_window_sec))
  match dictGet h d2 with
  | some last =>
    if now - last ≤ cfg.dedup_window_sec then (false, d2)
    else (true, dictSet h now d2)
  | none => (true, dictSet h now d2)

/-- The cap-based purge of _dedup_allows in isolation (spec step named
for comparison): when the entry count exceeds the cap, drop the oldest
max(1, n div 2) entries by timestamp (stable order). -/
def capPurgeStep (cfg : Config) (d : List (String × Int)) : List (String × Int) :=
  if d.length > cfg.dedup_max_keys then
    let toRemove := ((sortByTs d).take (max 1 (d.length / 2))).map Prod.fst
    d.filter (fun kv => !(toRemove.contains kv.1))
  else d

/-- The window-expiry of _dedup_allows in isolation: drop entries whose
age exceeds the window. -/
def expireStep (cfg : Config) (now : Int) (d : List (String × Int)) :
    List (String × Int) :=
  d.filter (fun kv => !(now - kv.2 > cfg.dedup_window_sec))

/-- The fingerprint lookup of _dedup_allows in isolation: suppress
without touching the store when the entry is within the window,
otherwise record the current time and allow. -/
def lookupInsertStep (cfg : Config) (now : Int) (h : String)
    (d : List (String × Int)) : Bool × List (String × Int) :=
  match dictGet h d with
  | some last =>
    if now - last ≤ cfg.dedup_window_sec then (false, d)
    else (true, dictSet h now d)
  | none => (true, dictSet h now d)

/-- The eviction order the claim asserts (spec wording, for
comparison): window expiry first, then the cap-based purge, then the
lookup. -/
def dedup_allows_claim_order (cfg : Config) (now : Int) (text : String)
    (d : List (String × Int)) : Bool × List (String × Int) :=
  lookupInsertStep cfg now (hash_text text) (capPurgeStep cfg (expireStep cfg now d))

/-- Mutable per-process state an HTTP worker sees, plus effect
counters: the de-dup store, the number of Telegram network calls made
(requests.post) and the number of backoff sleeps performed (each sleep
is time.sleep(TG_BACKOFF_SEC)). -/
structure SendState where
  dedup : List (String × Int)
  netCalls : Nat
  sleeps : Nat
deriving DecidableEq

/-- Result dict of send_telegram_message: a skip carries ok=True and a
reason; a delivery carries ok=True, the response detail and the 1-based
attempt index; a failure carries ok=False, the last failure detail and
the total attempt count. -/
inductive SendOutcome where
  | skipped : String → SendOutcome
  | delivered : String → Nat → SendOutcome
  | failed : String → Nat → SendOutcome
deriving DecidableEq

/-- The "ok" field of the result dict. -/
def SendOutcome.isOk : SendOutcome → Bool
  | SendOutcome.failed _ _ => false
  | _ => true

/-- The retry loop of server.py send_telegram_message, one iteration
per remaining attempt (idx is the 0-based Python loop variable).  Each
iteration performs _telegram_post: with a missing bot token or chat id
it returns the misconfigured result without a network call, otherwise
the network oracle answers the next requests.post call.  A failed
attempt that is not the last sleeps the backoff interval. -/
def attemptLoop (cfg : Config) (net : Nat → Bool × String) (retries : Nat) :
    Nat → Nat → String → SendState → SendOutcome × SendState
  | 0, _, lastDetail, st => (SendOutcome.failed lastDetail (retries + 1), st)
  | remaining + 1, idx, _, st =>
    let credsMissing : Bool := cfg.bot_token == "" || cfg.chat_id == ""
    let ok : Bool := if credsMissing then false else (net st.netCalls).1
    let detail : String :=
      if credsMissing then "Missing Telegram credentials" else (net st.netCalls).2
    let st1 : SendState :=
      if credsMissing then st else ⟨st.dedup, st.netCalls + 1, st.sleeps⟩
    if ok then (SendOutcome.delivered detail (idx + 1), st1)
    else
      let st2 : SendState :=
        if idx < retries then ⟨st1.dedup, st1.netCalls, st1.sleeps + 1⟩ else st1
      attemptLoop cfg net retries remaining (idx + 1) detail st2

/-- server.py send_telegram_message.  kind LOG is never sent; empty or
whitespace-only text is skipped; then the de-dup gate runs (its store
mutations persist even on suppression); an allowed send runs the retry
loop with retry budget TG_RETRIES plus one during warmup (uptime below
READY_AFTER_SEC), i.e. range(0, max(1, retries + 1)) attempts — with a
Nat retry count that is retries + 1. -/
def send_telegram_message (cfg : Config) (net : Nat → Bool × String)
    (serverStart now : Int) (text kind : String) (st : SendState) :
    SendOutcome × SendState :=
  if kind = "LOG" then (SendOutcome.skipped "LOG-only", st)
  else if text = "" ∨ pyStrip text = "" then (SendOutcome.skipped "empty_message", st)
  else
    let res := dedup_allows cfg now text st.dedup
    let st1 : SendState := ⟨res.2, st.netCalls, st.sleeps⟩
    if res.1 then
      let uptime := now - serverStart
      let retries := cfg.tg_retries + (if uptime < cfg.ready_after_sec then 1 else 0)
      attemptLoop cfg net retries (retries + 1) 0 "" st1
    else (SendOutcome.skipped "dedup_window", st1)

/-! ## The webhook coordinator (server.py webhook route) -/

/-- Terminal outcome of one webhook request: the HB15 telemetry-only
response, the telemetry-only-or-empty skip, or the Telegram result. -/
inductive WebhookOutcome where
  | hb15_logged : WebhookOutcome
  | telemetry_only_or_empty : WebhookOutcome
  | telegram : SendOutcome → WebhookOutcome
deriving DecidableEq

/-- server.py webhook (POST handler): extract the message, parse the
LOG telemetry; a truthy (non-empty) dict is appended to the CSV bucket
(the append is abstracted to a row count; its I/O errors are caught in
the code and change nothing observable here); an HB15 event (str() of
the event field upper-cased) returns without delivery; then empty clean
text is skipped, and otherwise the Telegram send runs.  Returns
(outcome, HTTP status, rows appended, new state). -/
def webhook (cfg : Config) (net : Nat → Bool × String) (serverStart now : Int)
    (body : String) (st : SendState) : WebhookOutcome × Nat × Nat × SendState :=
  let raw_body := extract_tv_message body
  let log_obj := parse_log_json raw_body
  let rows : Nat :=
    match log_obj with
    | some m => if m.isEmpty then 0 else 1
    | none => 0
  let isHB : Bool :=
    match log_obj with
    | some m =>
      !m.isEmpty && (pyUpper (pyStr ((dictGet "event" m).getD (PyVal.str ""))) == "HB15")
    | none => false
  if isHB then (WebhookOutcome.hb15_logged, 200, rows, st)
  else
    let clean_body := strip_log_from_body raw_body
    if clean_body = "" then (WebhookOutcome.telemetry_only_or_empty, 200, rows, st)
    else
      let r := send_telegram_message cfg net serverStart now clean_body "SIGNAL" st
      (WebhookOutcome.telegram r.1, if r.1.isOk then 200 else 202, rows, r.2)

/-! ## Theorems -/

/-- C1: the code puts the full YYYYMMDD date into the bucket file name,
so the two days of one 2-day period resolve to different files, against
the 2-day-bucket intent of the function (its docstring and its
period_start computation). -/
theorem C1_bucket_path_embeds_full_date :
    get_csv_path "logs" 2025 1 1 = "logs/gdm_signals_20250101_01.csv" ∧
    get_csv_path "logs" 2025 1 2 = "logs/gdm_signals_20250102_01.csv" ∧
    get_csv_path "logs" 2025 1 3 = "logs/gdm_signals_20250103_03.csv" ∧
    get_csv_path "logs" 2025 1 1 ≠ get_csv_path "logs" 2025 1 2 := by
  refine ⟨rfl, rfl, rfl, ?_⟩
  decide

/-- The per-line loop of strip_log_from_body computes exactly the
spec-side decomposition of the kept pieces. -/
theorem processLines_eq_specLines (lines : List String) :
    processLines lines = specLines lines := by
  induction lines with
  | nil => rfl
  | cons ln rest ih =>
    cases hA : pyStartsWith (pyStrip (pyRstrip ln)) "LOG:" with
    | true =>
      simp only [processLines, specLines, List.filter_cons, hA, Bool.not_true,
        if_true, Bool.false_eq_true, if_false]
      exact ih
    | false =>
      cases hB : hasInfix logTok (pyRstrip ln).data with
      | true =>
        simp only [processLines, specLines, List.filter_cons, hA, hB, Bool.not_false,
          Bool.not_true, if_true, Bool.false_eq_true, if_false, List.takeWhile_cons,
          List.dropWhile_cons, List.map_nil, List.nil_append, inlinePiece]
      | false =>
        simp only [processLines, specLines, List.filter_cons, hA, hB, Bool.not_false,
          Bool.not_true, if_true, Bool.false_eq_true, if_false, List.takeWhile_cons,
          List.dropWhile_cons, List.map_cons, List.cons_append]
        rw [ih]
        rfl

/-- C2 (amended): clean_text equals the spec-side description in which
a line whose trimmed form starts with the marker is dropped, the first
remaining line containing an inline marker keeps only the trimmed
prefix before the marker and every line after it is discarded, earlier
lines are kept right-trimmed, and the joined result is trimmed of
surrounding whitespace. -/
theorem C2_clean_text_spec_eq (raw_body : String) :
    strip_log_from_body raw_body = clean_text_spec raw_body := by
  by_cases h : raw_body = ""
  · subst h; rfl
  · simp only [strip_log_from_body, clean_text_spec, h, if_false,
      processLines_eq_specLines]

/-- C2 counterexample: on a body with an inline marker followed by a
further line, the code drops the later line ("More"), while the claim
says every line after an inline-marker line is preserved, which would
give "Enter\nMore"; and on a marker-free body the code right-trims
kept lines and strips leading blank lines, not only trailing ones, so
"\nA \nB" becomes "A\nB" rather than being preserved. -/
theorem C2_counterexample :
    strip_log_from_body "Enter LOG:x\nMore" = "Enter" ∧
    strip_log_from_body "Enter LOG:x\nMore" ≠ "Enter\nMore" ∧
    strip_log_from_body "\nA \nB" = "A\nB" ∧
    strip_log_from_body "\nA \nB" ≠ "\nA \nB" := by
  refine ⟨rfl, ?_, rfl, ?_⟩ <;> decide

/-- hasInfix with the empty pattern is always true. -/
theorem hasInfix_nil_pat (l : List Char) : hasInfix [] l = true := by
  cases l with
  | nil => rfl
  | cons c rest => simp [hasInfix, List.isPrefixOf]

/-- A list prefix test survives appending on the right. -/
theorem isPrefixOf_extend {t m s : List Char} (h : t.isPrefixOf m = true) :
    t.isPrefixOf (m ++ s) = true := by
  rw [List.isPrefixOf_iff_prefix] at h ⊢
  exact h.trans (List.prefix_append m s)

/-- An occurrence inside a prefix is an occurrence in the whole list. -/
theorem hasInfix_mono_pre {t l1 l2 : List Char} (h : l1 <+: l2)
    (hi : hasInfix t l1 = true) : hasInfix t l2 = true := by
  obtain ⟨s, rfl⟩ := h
  induction l1 with
  | nil =>
    have ht : t = [] := by
      cases t with
      | nil => rfl
      | cons c r => simp [hasInfix] at hi
    subst ht
    exact hasInfix_nil_pat _
  | cons a l1' ih =>
    simp only [hasInfix, Bool.or_eq_true] at hi
    rcases hi with hi | hi
    · simp only [List.cons_append, hasInfix, Bool.or_eq_true]
      exact Or.inl (isPrefixOf_extend hi)
    · simp only [List.cons_append, hasInfix, Bool.or_eq_true]
      exact Or.inr (ih hi)

/-- An occurrence inside a suffix is an occurrence in the whole list. -/
theorem hasInfix_mono_suf {t l1 l2 : List Char} (h : l1 <:+ l2)
    (hi : hasInfix t l1 = true) : hasInfix t l2 = true := by
  obtain ⟨s, rfl⟩ := h
  induction s with
  | nil => exact hi
  | cons c s' ih =>
    simp only [List.cons_append, hasInfix, Bool.or_eq_true]
    exact Or.inr ih

/-- Contrapositive of hasInfix_mono_pre. -/
theorem hasInfix_false_pre {t l1 l2 : List Char} (h : l1 <+: l2)
    (hi : hasInfix t l2 = false) : hasInfix t l1 = false := by
  cases hc : hasInfix t l1 with
  | false => rfl
  | true => rw [hasInfix_mono_pre h hc] at hi; simp at hi

/-- Contrapositive of hasInfix_mono_suf. -/
theorem hasInfix_false_suf {t l1 l2 : List Char} (h : l1 <:+ l2)
    (hi : hasInfix t l2 = false) : hasInfix t l1 = false := by
  cases hc : hasInfix t l1 with
  | false => rfl
  | true => rw [hasInfix_mono_suf h hc] at hi; simp at hi

/-- A pattern that avoids a character and is a list prefix through that
character is already a prefix of the part before it. -/
theorem isPrefixOf_append_cons {t l1 l2 : List Char} {c0 : Char} (hc : c0 ∉ t)
    (h : t.isPrefixOf (l1 ++ c0 :: l2) = true) : t.isPrefixOf l1 = true := by
  induction t generalizing l1 with
  | nil => simp [List.isPrefixOf]
  | cons c t' ih =>
    cases l1 with
    | nil =>
      simp only [List.nil_append, List.isPrefixOf, Bool.and_eq_true, beq_iff_eq] at h
      obtain ⟨h1, _⟩ := h
      subst h1
      exact absurd (List.mem_cons_self _ _) hc
    | cons a l1' =>
      simp only [List.cons_append, List.isPrefixOf, Bool.and_eq_true] at h ⊢
      exact ⟨h.1, ih (fun hm => hc (List.mem_cons_of_mem _ hm)) h.2⟩

/-- An occurrence of a pattern avoiding c0 inside l1 ++ c0 :: l2 lies
entirely inside l1 or entirely inside l2. -/
theorem hasInfix_append_cons {t l1 l2 : List Char} {c0 : Char} (hc : c0 ∉ t)
    (h : hasInfix t (l1 ++ c0 :: l2) = true) :
    hasInfix t l1 = true ∨ hasInfix t l2 = true := by
  induction l1 with
  | nil =>
    simp only [List.nil_append, hasInfix, Bool.or_eq_true] at h
    rcases h with h | h
    · cases t with
      | nil => exact Or.inl (hasInfix_nil_pat [])
      | cons c t' =>
        simp only [List.isPrefixOf, Bool.and_eq_true, beq_iff_eq] at h
        obtain ⟨h1, _⟩ := h
        subst h1
        exact absurd (List.mem_cons_self _ _) hc
    · exact Or.inr h
  | cons a l1' ih =>
    simp only [List.cons_append, hasInfix, Bool.or_eq_true] at h
    rcases h with h | h
    · left
      have hp : t.isPrefixOf (a :: l1') = true := isPrefixOf_append_cons hc h
      simp [hasInfix, hp]
    · rcases ih h with h' | h'
      · left
        simp [hasInfix, h']
      · exact Or.inr h'

/-- takeBefore yields a prefix of its input. -/
theorem takeBefore_prefix_orig (t l : List Char) : takeBefore t l <+: l := by
  induction l with
  | nil => exact List.prefix_refl []
  | cons c rest ih =>
    simp only [takeBefore]
    by_cases hp : t.isPrefixOf (c :: rest) = true
    · simp [hp]
    · simp only [hp, if_false]
      obtain ⟨s, hs⟩ := ih
      exact ⟨s, by simp [hs]⟩

/-- The part before the first occurrence of a non-empty pattern does
not contain the pattern. -/
theorem hasInfix_takeBefore_false {t : List Char} (ht : t ≠ []) (l : List Char) :
    hasInfix t (takeBefore t l) = false := by
  induction l with
  | nil =>
    cases t with
    | nil => exact absurd rfl ht
    | cons c t' => rfl
  | cons c rest ih =>
    simp only [takeBefore]
    by_cases hp : t.isPrefixOf (c :: rest) = true
    · simp only [hp, if_true]
      cases t with
      | nil => exact absurd rfl ht
      | cons c' t' => rfl
    · simp only [hp, if_false]
      have h2 : t.isPrefixOf (c :: takeBefore t rest) = false := by
        cases hq : t.isPrefixOf (c :: takeBefore t rest) with
        | false => rfl
        | true =>
          exfalso
          apply hp
          rw [List.isPrefixOf_iff_prefix] at hq ⊢
          refine hq.trans ?_
          obtain ⟨s, hs⟩ := takeBefore_prefix_orig t rest
          exact ⟨s, by simp [hs]⟩
      simp [hasInfix, h2, ih]

/-- Right-stripping yields a prefix of the input. -/
theorem rstripL_prefix_orig (l : List Char) : rstripL l <+: l := by
  have h := List.dropWhile_suffix (l := l.reverse) isPySpace
  have h2 : (l.reverse.dropWhile isPySpace).reverse <+: l.reverse.reverse :=
    List.reverse_prefix.mpr h
  simpa [rstripL] using h2

/-- Full stripping cannot create an occurrence of a pattern. -/
theorem hasInfix_stripL_false {t l : List Char}
    (h : hasInfix t l = false) : hasInfix t (stripL l) = false := by
  have h1 : hasInfix t (rstripL l) = false :=
    hasInfix_false_pre (rstripL_prefix_orig l) h
  exact hasInfix_false_suf (List.dropWhile_suffix isPySpace) h1

/-- Joining pattern-free pieces with newlines stays pattern-free when
the pattern is non-empty and contains no newline. -/
theorem hasInfix_joinNL {t : List Char} (ht : t ≠ []) (hn : '\n' ∉ t) :
    ∀ pieces : List String, (∀ p ∈ pieces, hasInfix t p.data = false) →
      hasInfix t (joinNL pieces).data = false := by
  intro pieces
  induction pieces with
  | nil =>
    intro _
    cases t with
    | nil => exact absurd rfl ht
    | cons c t' => rfl
  | cons s rest ih =>
    intro hp
    cases rest with
    | nil => exact hp s (List.mem_singleton.mpr rfl)
    | cons s2 rest2 =>
      have hs : hasInfix t s.data = false := hp s (by simp)
      have hj : hasInfix t (joinNL (s2 :: rest2)).data = false :=
        ih (fun p hp' => hp p (List.mem_cons_of_mem _ hp'))
      have hdata : (s ++ "\n" ++ joinNL (s2 :: rest2)).data
          = s.data ++ '\n' :: (joinNL (s2 :: rest2)).data := by
        rw [String.data_append, String.data_append]
        simp [List.append_assoc]
      show hasInfix t (joinNL (s :: s2 :: rest2)).data = false
      rw [show joinNL (s :: s2 :: rest2) = s ++ "\n" ++ joinNL (s2 :: rest2) from rfl,
        hdata]
      cases hres : hasInfix t (s.data ++ '\n' :: (joinNL (s2 :: rest2)).data) with
      | false => rfl
      | true =>
        exfalso
        rcases hasInfix_append_cons hn hres with h | h
        · rw [h] at hs; simp at hs
        · rw [h] at hj; simp at hj

/-- Every piece kept by the splitter loop is marker-free. -/
theorem processLines_no_marker :
    ∀ lines : List String, ∀ p ∈ processLines lines, hasInfix logTok p.data = false := by
  intro lines
  induction lines with
  | nil => intro p hp; simp [processLines] at hp
  | cons ln rest ih =>
    intro p hp
    simp only [processLines] at hp
    by_cases hA : pyStartsWith (pyStrip (pyRstrip ln)) "LOG:" = true
    · rw [if_pos hA] at hp
      exact ih p hp
    · rw [if_neg hA] at hp
      by_cases hB : hasInfix logTok (pyRstrip ln).data = true
      · rw [if_pos hB] at hp
        by_cases hpre : pyRstrip (String.mk (takeBefore logTok (pyRstrip ln).data)) = ""
        · rw [if_pos hpre] at hp
          simp at hp
        · rw [if_neg hpre] at hp
          rw [List.mem_singleton] at hp
          subst hp
          have h0 : hasInfix logTok (takeBefore logTok (pyRstrip ln).data) = false :=
            hasInfix_takeBefore_false (by decide) _
          exact hasInfix_false_pre (rstripL_prefix_orig _) h0
      · rw [if_neg hB] at hp
        rcases List.mem_cons.mp hp with hp' | hp'
        · subst hp'
          exact Bool.eq_false_iff.mpr hB
        · exact ih p hp'

/-- C7: clean_text never contains the marker token; the concrete
round trip with an inline marker after "Enter" gives clean text
"Enter" and telemetry fragment mapping event to HB; a fragment that
fails to parse leaves the independently computed clean_text unchanged
(same prefix, telemetry absent). -/
theorem C7_splitter_round_trip :
    (∀ raw_body : String, pyContains "LOG:" (strip_log_from_body raw_body) = false) ∧
    strip_log_from_body "Enter LOG:\x7b\"event\":\"HB\"\x7d" = "Enter" ∧
    parse_log_json "Enter LOG:\x7b\"event\":\"HB\"\x7d" = some [("event", PyVal.str "HB")] ∧
    strip_log_from_body "Enter LOG:notjson" = "Enter" ∧
    parse_log_json "Enter LOG:notjson" = none := by
  refine ⟨?_, rfl, rfl, rfl, rfl⟩
  intro raw
  by_cases h : raw = ""
  · subst h; rfl
  · simp only [strip_log_from_body, h, if_false, pyContains]
    have hj : hasInfix logTok (joinNL (processLines (pySplitlines raw))).data = false :=
      hasInfix_joinNL (by decide) (by decide) _ (processLines_no_marker _)
    exact hasInfix_stripL_false hj

/-- The key loop of extract_tv_message agrees with the filterMap-style
first-string-field selection of the spec description. -/
theorem firstStrField_head (m : List (String × PyVal)) (ks : List String) :
    (ks.filterMap (fun k =>
      match dictGet k m with
      | some (PyVal.str s) => some (pyStrip s)
      | _ => none)).head? = Option.map pyStrip (firstStrField m ks) := by
  induction ks with
  | nil => rfl
  | cons k ks' ih =>
    simp only [List.filterMap_cons, firstStrField]
    cases hdg : dictGet k m with
    | none => simp [hdg, ih]
    | some v => cases v <;> simp [hdg, ih]

/-- C6 (amended): extraction equals the spec-side description in which
the structured tier — attempted only on a brace-wrapped trimmed body
that parses as a JSON object — yields the first string value among the
fields message, text, body, trimmed even when empty, and otherwise the
trimmed raw body is returned (so malformed JSON falls through and no
form tier exists). -/
theorem C6_extract_matches_spec (body : String) :
    extract_tv_message body = extract_spec body := by
  simp only [extract_tv_message, extract_spec]
  by_cases hb : (pyStartsWith (pyStrip body) "\x7b" && pyEndsWith (pyStrip body) "\x7d") = true
  · rw [if_pos hb, if_pos hb]
    cases hj : json_loads (pyStrip body) with
    | none => simp
    | some v =>
      cases v with
      | obj m =>
        dsimp only
        rw [firstStrField_head]
        cases hf : firstStrField m ["message", "text", "body"] with
        | none => simp
        | some s => simp
      | null => simp
      | bool b => simp
      | int n => simp
      | float q => simp
      | str s => simp
      | arr xs => simp
  · rw [if_neg hb, if_neg hb]
    simp

/-- C6 counterexample: with body consisting of a JSON object whose
message field is the empty string and whose text field is "hi", the
claim (non-empty structured fields, message before text) predicts
"hi", but the code returns the empty message value: an empty string
value does not fall through to the next tier. -/
theorem C6_counterexample :
    extract_tv_message "\x7b\"message\": \"\", \"text\": \"hi\"\x7d" = "" ∧
    extract_tv_message "\x7b\"message\": \"\", \"text\": \"hi\"\x7d" ≠ "hi" := by
  refine ⟨rfl, ?_⟩
  decide

/-- C8 (amended): on every call the de-dup gate runs the cap-based
halving first (on the entry count that still includes expired
entries), then the window expiry, and the fingerprint lookup last. -/
theorem C8_dedup_step_order (cfg : Config) (now : Int) (text : String)
    (d : List (String × Int)) :
    dedup_allows cfg now text d =
      lookupInsertStep cfg now (hash_text text)
        (expireStep cfg now (capPurgeStep cfg d)) := rfl

/-- C8 counterexample: with cap 1, window 30, store
[(a, 0), (b, 50), (c, 60)] and now = 70, the code halves first (the
count 3 includes the expired entry a, so only a is evicted) and then
finds b inside the window, suppressing it; the claimed order (expire
first, then halve) would evict a by expiry and then b as the oldest
half of the live entries, and would therefore allow b. -/
theorem C8_counterexample :
    (dedup_allows ⟨"t", "c", 20, 2, 2, 30, 1⟩ 70 "b"
      [("a", 0), ("b", 50), ("c", 60)]).1 = false ∧
    (dedup_allows_claim_order ⟨"t", "c", 20, 2, 2, 30, 1⟩ 70 "b"
      [("a", 0), ("b", 50), ("c", 60)]).1 = true := by
  refine ⟨?_, ?_⟩ <;> decide

/-- With credentials present and an always-failing endpoint, the retry
loop makes one network call per remaining attempt, sleeps after every
failed attempt except the last, and returns the last failure detail
with the full attempt count. -/
theorem attemptLoop_all_fail (cfg : Config) (net : Nat → Bool × String) (retries : Nat)
    (hcred : (cfg.bot_token == "" || cfg.chat_id == "") = false)
    (hfail : ∀ i, (net i).1 = false) :
    ∀ remaining idx d st, idx + remaining = retries + 1 → 1 ≤ remaining →
      attemptLoop cfg net retries remaining idx d st =
        (SendOutcome.failed (net (st.netCalls + (remaining - 1))).2 (retries + 1),
         ⟨st.dedup, st.netCalls + remaining, st.sleeps + (remaining - 1)⟩) := by
  intro remaining
  induction remaining with
  | zero => intro idx d st _ h1; exact absurd h1 (by omega)
  | succ r ih =>
    intro idx d st hinv _
    cases r with
    | zero =>
      have hidx : idx = retries := by omega
      subst hidx
      simp [attemptLoop, hcred, hfail]
    | succ r' =>
      have hlt : idx < retries := by omega
      have hstep : attemptLoop cfg net retries (r' + 1 + 1) idx d st =
          attemptLoop cfg net retries (r' + 1) (idx + 1) (net st.netCalls).2
            ⟨st.dedup, st.netCalls + 1, st.sleeps + 1⟩ := by
        simp [attemptLoop, hcred, hfail, hlt]
      rw [hstep, ih (idx + 1) (net st.netCalls).2 ⟨st.dedup, st.netCalls + 1, st.sleeps + 1⟩
        (by omega) (by omega)]
      have hA : st.netCalls + 1 + (r' + 1 - 1) = st.netCalls + (r' + 1 + 1 - 1) := by omega
      have hB : st.netCalls + 1 + (r' + 1) = st.netCalls + (r' + 1 + 1) := by omega
      have hC : st.sleeps + 1 + (r' + 1 - 1) = st.sleeps + (r' + 1 + 1 - 1) := by omega
      rw [hA, hB, hC]

/-- With missing credentials every attempt of the retry loop fails
immediately with the misconfigured detail and no network call, while
the loop still sleeps between attempts. -/
theorem attemptLoop_no_creds (cfg : Config) (net : Nat → Bool × String) (retries : Nat)
    (hcred : (cfg.bot_token == "" || cfg.chat_id == "") = true) :
    ∀ remaining idx d st, idx + remaining = retries + 1 → 1 ≤ remaining →
      attemptLoop cfg net retries remaining idx d st =
        (SendOutcome.failed "Missing Telegram credentials" (retries + 1),
         ⟨st.dedup, st.netCalls, st.sleeps + (remaining - 1)⟩) := by
  intro remaining
  induction remaining with
  | zero => intro idx d st _ h1; exact absurd h1 (by omega)
  | succ r ih =>
    intro idx d st hinv _
    cases r with
    | zero =>
      have hidx : idx = retries := by omega
      subst hidx
      simp [attemptLoop, hcred]
    | succ r' =>
      have hlt : idx < retries := by omega
      have hstep : attemptLoop cfg net retries (r' + 1 + 1) idx d st =
          attemptLoop cfg net retries (r' + 1) (idx + 1) "Missing Telegram credentials"
            ⟨st.dedup, st.netCalls, st.sleeps + 1⟩ := by
        simp [attemptLoop, hcred, hlt]
      rw [hstep, ih (idx + 1) "Missing Telegram credentials"
        ⟨st.dedup, st.netCalls, st.sleeps + 1⟩ (by omega) (by omega)]
      have hC : st.sleeps + 1 + (r' + 1 - 1) = st.sleeps + (r' + 1 + 1 - 1) := by omega
      rw [hC]

/-- C3 (amended): with missing credentials every delivery attempt
short-circuits with the misconfigured detail and no network call, but
the engine still runs its full retry loop, sleeping the backoff between
attempts, and returns ok=false with attempts = retries + 1; and
telemetry persistence proceeds for any request whose telemetry parses,
independently of the credentials. -/
theorem C3_missing_credentials (cfg : Config) (net : Nat → Bool × String)
    (serverStart now : Int) (text : String) (st : SendState)
    (hcred : cfg.bot_token = "" ∨ cfg.chat_id = "")
    (htext : ¬(text = "" ∨ pyStrip text = ""))
    (hallow : (dedup_allows cfg now text st.dedup).1 = true) :
    send_telegram_message cfg net serverStart now text "SIGNAL" st =
      (SendOutcome.failed "Missing Telegram credentials"
        (cfg.tg_retries + (if now - serverStart < cfg.ready_after_sec then 1 else 0) + 1),
       ⟨(dedup_allows cfg now text st.dedup).2, st.netCalls,
        st.sleeps + (cfg.tg_retries + (if now - serverStart < cfg.ready_after_sec then 1 else 0))⟩) ∧
    (∀ (body : String) (m : List (String × PyVal)) (st2 : SendState),
      parse_log_json (extract_tv_message body) = some m → m ≠ [] →
        (webhook cfg net serverStart now body st2).2.2.1 = 1) := by
  constructor
  · have hcredb : (cfg.bot_token == "" || cfg.chat_id == "") = true := by
      rcases hcred with h | h <;> simp [h]
    simp only [send_telegram_message]
    rw [if_neg (by decide : ¬("SIGNAL" = "LOG")), if_neg htext]
    simp only [hallow, if_true]
    rw [attemptLoop_no_creds cfg net _ hcredb _ 0 ""
      ⟨(dedup_allows cfg now text st.dedup).2, st.netCalls, st.sleeps⟩ (by omega) (by omega)]
    simp
  · intro body m st2 hparse hm
    have hm' : m.isEmpty = false := by
      cases m with
      | nil => exact absurd rfl hm
      | cons a l => rfl
    simp only [webhook, hparse]
    simp only [hm', Bool.false_eq_true, if_false]
    split
    · rfl
    · split
      · rfl
      · rfl

/-- C3 counterexample: with empty bot token, retry count 2 and no
warmup, a send makes zero network calls but still runs three attempts
with two backoff sleeps — not the single attempt without retry loop or
sleeps that the claim asserts. -/
theorem C3_counterexample :
    send_telegram_message ⟨"", "c", 20, 2, 2, 30, 512⟩ (fun _ => (true, "ok"))
        0 100 "hello" "SIGNAL" ⟨[], 0, 0⟩ =
      (SendOutcome.failed "Missing Telegram credentials" 3, ⟨[("hello", 100)], 0, 2⟩) := by
  decide

/-- C5: with credentials present and an endpoint that fails every
attempt, delivery makes exactly base retries + 1 attempts (one more
inside the warmup window), sleeping the fixed backoff between
consecutive attempts but not after the last (sleeps = retries), and
returns ok=false with the detail of the last network call and attempts
equal to the total. -/
theorem C5_retry_exhaustion (cfg : Config) (net : Nat → Bool × String)
    (serverStart now : Int) (text : String) (st : SendState)
    (hbot : cfg.bot_token ≠ "") (hchat : cfg.chat_id ≠ "")
    (hfail : ∀ i, (net i).1 = false)
    (htext : ¬(text = "" ∨ pyStrip text = ""))
    (hallow : (dedup_allows cfg now text st.dedup).1 = true) :
    send_telegram_message cfg net serverStart now text "SIGNAL" st =
      (SendOutcome.failed
        (net (st.netCalls + (cfg.tg_retries + (if now - serverStart < cfg.ready_after_sec then 1 else 0)))).2
        (cfg.tg_retries + (if now - serverStart < cfg.ready_after_sec then 1 else 0) + 1),
       ⟨(dedup_allows cfg now text st.dedup).2,
        st.netCalls + (cfg.tg_retries + (if now - serverStart < cfg.ready_after_sec then 1 else 0) + 1),
        st.sleeps + (cfg.tg_retries + (if now - serverStart < cfg.ready_after_sec then 1 else 0))⟩) := by
  have hcredb : (cfg.bot_token == "" || cfg.chat_id == "") = false := by
    simp [hbot, hchat]
  simp only [send_telegram_message]
  rw [if_neg (by decide : ¬("SIGNAL" = "LOG")), if_neg htext]
  simp only [hallow, if_true]
  rw [attemptLoop_all_fail cfg net _ hcredb hfail _ 0 ""
    ⟨(dedup_allows cfg now text st.dedup).2, st.netCalls, st.sleeps⟩ (by omega) (by omega)]
  simp

/-- C5 witness at a concrete failing endpoint, outside warmup:
3 attempts, 2 sleeps, last detail returned. -/
theorem C5_retry_exhaustion_witness :
    send_telegram_message ⟨"t", "c", 20, 2, 2, 30, 512⟩ (fun i => (false, "err" ++ toString i))
        0 100 "hello" "SIGNAL" ⟨[], 0, 0⟩ =
      (SendOutcome.failed "err2" 3, ⟨[("hello", 100)], 3, 2⟩) := by
  have h := C5_retry_exhaustion ⟨"t", "c", 20, 2, 2, 30, 512⟩
    (fun i => (false, "err" ++ toString i)) 0 100 "hello" ⟨[], 0, 0⟩
    (by decide) (by decide) (fun i => rfl) (by decide) (by decide)
  exact h

/-- C3 witness: the missing-credentials theorem applied at a concrete
configuration (empty bot token, retry count 2, outside warmup) and at a
concrete telemetry-bearing request. -/
theorem C3_missing_credentials_witness :
    send_telegram_message ⟨"", "c", 20, 2, 2, 30, 512⟩ (fun _ => (true, "ok"))
        0 100 "hello" "SIGNAL" ⟨[], 0, 0⟩ =
      (SendOutcome.failed "Missing Telegram credentials" 3, ⟨[("hello", 100)], 0, 2⟩) ∧
    (webhook ⟨"", "c", 20, 2, 2, 30, 512⟩ (fun _ => (true, "ok")) 0 100
        "LOG:\x7b\"event\":\"X\"\x7d" ⟨[], 0, 0⟩).2.2.1 = 1 := by
  have h := C3_missing_credentials ⟨"", "c", 20, 2, 2, 30, 512⟩ (fun _ => (true, "ok"))
    0 100 "hello" ⟨[], 0, 0⟩ (Or.inl rfl) (by decide) (by decide)
  exact ⟨h.1, h.2 "LOG:\x7b\"event\":\"X\"\x7d" [("event", PyVal.str "X")] ⟨[], 0, 0⟩
    rfl (List.cons_ne_nil _ _)⟩

/-- A successful network call delivers immediately with the 1-based
attempt index and one more network call on the counter. -/
theorem attemptLoop_first_ok (cfg : Config) (net : Nat → Bool × String)
    (retries r idx : Nat) (d : String) (st : SendState)
    (hcred : (cfg.bot_token == "" || cfg.chat_id == "") = false)
    (hok : (net st.netCalls).1 = true) :
    attemptLoop cfg net retries (r + 1) idx d st =
      (SendOutcome.delivered (net st.netCalls).2 (idx + 1),
       ⟨st.dedup, st.netCalls + 1, st.sleeps⟩) := by
  simp [attemptLoop, hcred, hok]

/-- The de-dup gate on an empty store records the entry and allows. -/
theorem dedup_allows_empty (cfg : Config) (now : Int) (text : String) :
    dedup_allows cfg now text [] = (true, [(text, now)]) := by
  simp [dedup_allows, hash_text, dictGet, dictSet]

/-- A sole entry within the window suppresses, leaving the store (and
its timestamp) untouched. -/
theorem dedup_allows_within (cfg : Config) (now t0 : Int) (text : String)
    (hcap : 1 ≤ cfg.dedup_max_keys) (hw : now - t0 ≤ cfg.dedup_window_sec) :
    dedup_allows cfg now text [(text, t0)] = (false, [(text, t0)]) := by
  have h1 : ¬(1 > cfg.dedup_max_keys) := by omega
  have h2 : ¬(now - t0 > cfg.dedup_window_sec) := not_lt.mpr hw
  simp [dedup_allows, hash_text, dictGet, h1, h2, hw]

/-- A sole entry older than the window is expired and the new send is
recorded at the current time. -/
theorem dedup_allows_expired (cfg : Config) (now t0 : Int) (text : String)
    (hcap : 1 ≤ cfg.dedup_max_keys) (hw : now - t0 > cfg.dedup_window_sec) :
    dedup_allows cfg now text [(text, t0)] = (true, [(text, now)]) := by
  have h1 : ¬(1 > cfg.dedup_max_keys) := by omega
  simp [dedup_allows, hash_text, dictGet, dictSet, h1, hw]

/-- C4: from a fresh store, a first send is delivered and records the
fingerprint at t1; an identical send at t2 within the window is
suppressed as dedup_window without updating the stored timestamp (the
state is unchanged); once the window measured from the first send has
elapsed, at t3, the same text is delivered again. -/
theorem C4_dedup_window (cfg : Config) (net : Nat → Bool × String)
    (serverStart t1 t2 t3 : Int) (text : String)
    (htext : ¬(text = "" ∨ pyStrip text = ""))
    (hcap : 1 ≤ cfg.dedup_max_keys)
    (hbot : cfg.bot_token ≠ "") (hchat : cfg.chat_id ≠ "")
    (hnet : ∀ i, net i = (true, "ok"))
    (hw12 : t2 - t1 ≤ cfg.dedup_window_sec)
    (hw13 : t3 - t1 > cfg.dedup_window_sec) :
    send_telegram_message cfg net serverStart t1 text "SIGNAL" ⟨[], 0, 0⟩ =
      (SendOutcome.delivered "ok" 1, ⟨[(text, t1)], 1, 0⟩) ∧
    send_telegram_message cfg net serverStart t2 text "SIGNAL" ⟨[(text, t1)], 1, 0⟩ =
      (SendOutcome.skipped "dedup_window", ⟨[(text, t1)], 1, 0⟩) ∧
    send_telegram_message cfg net serverStart t3 text "SIGNAL" ⟨[(text, t1)], 1, 0⟩ =
      (SendOutcome.delivered "ok" 1, ⟨[(text, t3)], 2, 0⟩) := by
  have hcredb : (cfg.bot_token == "" || cfg.chat_id == "") = false := by
    simp [hbot, hchat]
  refine ⟨?_, ?_, ?_⟩
  · simp only [send_telegram_message]
    rw [if_neg (by decide : ¬("SIGNAL" = "LOG")), if_neg htext]
    rw [dedup_allows_empty]
    dsimp only
    rw [if_pos rfl]
    rw [attemptLoop_first_ok cfg net _ _ 0 "" ⟨[(text, t1)], 0, 0⟩ hcredb
      (by simp [hnet])]
    simp [hnet]
  · simp only [send_telegram_message]
    rw [if_neg (by decide : ¬("SIGNAL" = "LOG")), if_neg htext]
    rw [dedup_allows_within cfg t2 t1 text hcap hw12]
    rfl
  · simp only [send_telegram_message]
    rw [if_neg (by decide : ¬("SIGNAL" = "LOG")), if_neg htext]
    rw [dedup_allows_expired cfg t3 t1 text hcap hw13]
    dsimp only
    rw [if_pos rfl]
    rw [attemptLoop_first_ok cfg net _ _ 0 "" ⟨[(text, t3)], 1, 0⟩ hcredb
      (by simp [hnet])]
    simp [hnet]

/-- C4 witness: the de-dup scenario at window 30, sends at times 100,
110 and 200. -/
theorem C4_dedup_window_witness :
    send_telegram_message ⟨"t", "c", 20, 2, 2, 30, 512⟩ (fun _ => (true, "ok"))
        0 100 "hello" "SIGNAL" ⟨[], 0, 0⟩ =
      (SendOutcome.delivered "ok" 1, ⟨[("hello", 100)], 1, 0⟩) ∧
    send_telegram_message ⟨"t", "c", 20, 2, 2, 30, 512⟩ (fun _ => (true, "ok"))
        0 110 "hello" "SIGNAL" ⟨[("hello", 100)], 1, 0⟩ =
      (SendOutcome.skipped "dedup_window", ⟨[("hello", 100)], 1, 0⟩) ∧
    send_telegram_message ⟨"t", "c", 20, 2, 2, 30, 512⟩ (fun _ => (true, "ok"))
        0 200 "hello" "SIGNAL" ⟨[("hello", 100)], 1, 0⟩ =
      (SendOutcome.delivered "ok" 1, ⟨[("hello", 200)], 2, 0⟩) :=
  C4_dedup_window ⟨"t", "c", 20, 2, 2, 30, 512⟩ (fun _ => (true, "ok")) 0 100 110 200
    "hello" (by decide) (by decide) (by decide) (by decide) (fun i => rfl)
    (by decide) (by decide)

/-- C9: an empty or whitespace-only body terminates with the
telemetry-only-or-empty skip (HTTP 200), makes no network call,
appends no telemetry row, and leaves the de-dup state (and all
counters) unchanged. -/
theorem C9_empty_body (cfg : Config) (net : Nat → Bool × String)
    (serverStart now : Int) (body : String) (st : SendState)
    (hbody : pyStrip body = "") :
    webhook cfg net serverStart now body st =
      (WebhookOutcome.telemetry_only_or_empty, 200, 0, st) := by
  have hex : extract_tv_message body = "" := by
    simp only [extract_tv_message, hbody]
    rfl
  simp only [webhook, hex]
  rfl

/-- C9 witness at the whitespace-only body "  \n ". -/
theorem C9_empty_body_witness :
    webhook ⟨"t", "c", 20, 2, 2, 30, 512⟩ (fun _ => (true, "ok")) 0 100 "  \n " ⟨[], 0, 0⟩ =
      (WebhookOutcome.telemetry_only_or_empty, 200, 0, ⟨[], 0, 0⟩) :=
  C9_empty_body ⟨"t", "c", 20, 2, 2, 30, 512⟩ (fun _ => (true, "ok")) 0 100 "  \n "
    ⟨[], 0, 0⟩ (by decide)

/-- C10: whenever the telemetry of a request parses to a record whose
event field, converted to a string and upper-cased, is "HB15", the
webhook terminates with the HB15 telemetry-logged outcome (HTTP 200),
appends the one telemetry row, and performs no delivery: the state —
including the network-call counter — is returned unchanged, whatever
human-readable text remains in the body. -/
theorem C10_heartbeat_case_insensitive (cfg : Config) (net : Nat → Bool × String)
    (serverStart now : Int) (body : String) (st : SendState)
    (m : List (String × PyVal))
    (hparse : parse_log_json (extract_tv_message body) = some m)
    (hev : pyUpper (pyStr ((dictGet "event" m).getD (PyVal.str ""))) = "HB15") :
    webhook cfg net serverStart now body st = (WebhookOutcome.hb15_logged, 200, 1, st) := by
  have hm : m.isEmpty = false := by
    cases m with
    | nil => simp [dictGet, pyStr, pyUpper] at hev
    | cons a l => rfl
  simp only [webhook, hparse]
  simp [hm, hev]

/-- C10 witness: a lower-case hb15 heartbeat is matched
case-insensitively and logged without delivery. -/
theorem C10_heartbeat_witness :
    webhook ⟨"t", "c", 20, 2, 2, 30, 512⟩ (fun _ => (true, "ok")) 0 100
        "Enter LOG:\x7b\"event\":\"hb15\"\x7d" ⟨[], 0, 0⟩ =
      (WebhookOutcome.hb15_logged, 200, 1, ⟨[], 0, 0⟩) :=
  C10_heartbeat_case_insensitive ⟨"t", "c", 20, 2, 2, 30, 512⟩ (fun _ => (true, "ok"))
    0 100 "Enter LOG:\x7b\"event\":\"hb15\"\x7d" ⟨[], 0, 0⟩
    [("event", PyVal.str "hb15")] rfl rfl
